import Mathlib

/-!
A verification development for the MinecraftMotionTools library: a shallow
embedding over the real numbers of the motion-model functions in
`minecraft_motion_tools.py` (the package's velocity module) and of the
acceleration solvers in `minecraft_motion_tools/acceleration.py`, together
with theorems about the embedded definitions.

Conventions of the embedding:
* Python floats are modelled as real numbers; `x ** y` becomes `Real.rpow`
  (written `x ^ y` with a real exponent).
* A function that may `raise` is modelled with `Except String`; a Python
  `None` result is modelled with `Option`.
* `scipy.special.lambertw(x, branch).real` is modelled by a classical choice
  function `lambertw`; no theorem below depends on its values.
* `math.inf` appears only as a return value of the source's `delta` helper,
  whose results are multiplied and compared with `0`; `delta` is therefore
  given values in `EReal`.
-/

open Filter Real

open scoped Classical

noncomputable section

namespace MMT

/-- The `ValueError` message raised by `check_values`. -/
def paramErr : String := "Inappropriate parameters (see help(check_values))"

/-- Embeds `check_values(a, d)` from `minecraft_motion_tools.py`: raises a
`ValueError` when `d < 0 or d >= 1 or a < 0`. -/
def check_values (a d : ℝ) : Except String Unit :=
  if d < 0 ∨ 1 ≤ d ∨ a < 0 then .error paramErr else .ok ()

/-- Modelled from the spec: the acceleration module calls `check_values(d)`
with the single argument `d`, importing `check_values` from the package's
`velocity` module, whose file is not among the provided sources.  Per the
spec's validation contract (parameters outside their range must make every
public entry point fail before any computation), this single-argument call
rejects `d` outside `[0, 1)`. -/
def check_drag (d : ℝ) : Except String Unit :=
  if d < 0 ∨ 1 ≤ d then .error paramErr else .ok ()

/-- Modelled from the spec: `scipy.special.lambertw(x, branch).real`, the real
part of the Lambert W function on branch `0` or `-1` (the only branches the
sources use).  A real preimage of `w * exp w = x` on the requested branch is
chosen classically when one exists; outside the real domain the value is left
unspecified (the sources take `.real` of a complex value there).  No theorem
in this file depends on the values of this function. -/
def lambertw (x : ℝ) (branch : ℤ) : ℝ :=
  if h : ∃ w : ℝ, w * Real.exp w = x ∧ (branch = 0 → -1 ≤ w) ∧ (branch ≠ 0 → w ≤ -1) then
    Classical.choose h
  else 0

/-- Embeds `v_from_t(v0, t, a, d, after)`. -/
def v_from_t (v0 t a d : ℝ) (after : Bool) : Except String ℝ :=
  (check_values a d).bind fun _ =>
  if d = 0 then .ok (v0 - a * t)
  else
    let a1 := if after then a * (1 - d) else a
    .ok (((v0 * d + a1) * (1 - d) ^ t - a1) / d)

/-- Embeds `p_from_t(v0, t, a, d, after, k)`. -/
def p_from_t (v0 t a d : ℝ) (after : Bool) (k : ℝ) : Except String ℝ :=
  (check_values a d).bind fun _ =>
  if d = 0 then .ok ((v0 + (0.5 - 0.5 * t - k) * a) * t)
  else
    let a1 := if after then a * (1 - d) else a
    let k1 := if after then k / (1 - d) else k
    .ok (((v0 * d + a1) * (1 - (1 - d) ^ t) / d - a1 * t) / d - k1 * a1 * t)

/-- Embeds `max_height_tick_from_v0(v0, a, d, after, k)`. -/
def max_height_tick_from_v0 (v0 a d : ℝ) (after : Bool) (k : ℝ) :
    Except String (Option ℝ) :=
  (check_values a d).bind fun _ =>
  if d = 0 then
    if a = 0 then .ok none else .ok (some (v0 / a - k))
  else
    let a1 := if after then a * (1 - d) else a
    let k1 := if after then k / (1 - d) else k
    if v0 * d + a1 = 0 then .ok none
    else
      let arg := (1 + k1 * d) * a1 / (v0 * d + a1)
      if arg ≤ 0 then .ok none
      else .ok (some (Real.log arg / Real.log (1 - d)))

/-- Embeds `max_height_from_v0(v0, a, d, after, k)`. -/
def max_height_from_v0 (v0 a d : ℝ) (after : Bool) (k : ℝ) :
    Except String (Option ℝ) :=
  (check_values a d).bind fun _ =>
  if a = 0 then
    if d = 0 then .ok none else .ok (some (v0 / d))
  else
    (max_height_tick_from_v0 v0 a d after k).bind fun tick =>
      match tick with
      | none => .ok none
      | some t => (p_from_t v0 ((⌈t⌉ : ℤ) : ℝ) a d after k).map some

/-- Embeds `v0_from_max_height(h, a, d, after, k)`.  The result is `none` for
Python `None`, `Sum.inl` for the single-value return of the `a = 0` branch,
and `Sum.inr` for the tuple of lower/upper bound pairs. -/
def v0_from_max_height (h a d : ℝ) (after : Bool) (k : ℝ) :
    Except String (Option (ℝ ⊕ List (ℝ × ℝ))) :=
  (check_values a d).bind fun _ =>
  if h ≤ 0 then .error "Maximum height must be greater than 0"
  else if a = 0 then
    if d = 0 then .ok none else .ok (some (Sum.inl (h * d)))
  else if d = 0 then
    .ok (some (Sum.inr
      [((k * 2 - 1 - (h * 8 / a + 1) ^ (0.5 : ℝ)) * a / 2,
        (k * 2 - 1 - (h * 8 / a) ^ (0.5 : ℝ)) * a / 2),
       ((k * 2 - 1 + (h * 8 / a) ^ (0.5 : ℝ)) * a / 2,
        (k * 2 - 1 + (h * 8 / a + 1) ^ (0.5 : ℝ)) * a / 2)]))
  else
    let a1 := if after then a * (1 - d) else a
    let k1 := if after then k / (1 - d) else k
    let arg := a1 * (1 + k1 * d)
    if arg = 0 then .ok none
    else
      let pair0 : ℝ × ℝ :=
        (a1 * ((1 + k1 * d) * lambertw (-(1 - d) ^ (h * d / arg - 1 / Real.log (1 - d))) 0 /
          Real.log (1 - d) - 1 / d),
         a1 * ((1 + k1 * d) * lambertw (Real.log (1 - d) * (1 - d) ^ (h * d / arg + 1 / d) / d) 0 /
          Real.log (1 - d) - 1 / d))
      let pair1 : ℝ × ℝ :=
        (a1 * ((1 + k1 * d) * lambertw (-(1 - d) ^ (h * d / arg - 1 / Real.log (1 - d))) (-1) /
          Real.log (1 - d) - 1 / d),
         a1 * ((1 + k1 * d) * lambertw (Real.log (1 - d) * (1 - d) ^ (h * d / arg + 1 / d) / d) (-1) /
          Real.log (1 - d) - 1 / d))
      let l1 := if max_height_tick_from_v0 pair1.1 a1 d false k1 = .ok none ∨
                   max_height_tick_from_v0 pair1.2 a1 d false k1 = .ok none
                then [pair0] else [pair0, pair1]
      let l2 := if max_height_tick_from_v0 pair0.1 a1 d false k1 = .ok none ∨
                   max_height_tick_from_v0 pair0.2 a1 d false k1 = .ok none
                then l1.eraseIdx 0 else l1
      if l2 = [] then .ok none else .ok (some (Sum.inr l2))

/-- Embeds `v0_from_v_t(v, t, a, d, after)`. -/
def v0_from_v_t (v t a d : ℝ) (after : Bool) : Except String ℝ :=
  (check_values a d).bind fun _ =>
  if d = 0 then .ok (v + t * a)
  else
    let a1 := if after then a * (1 - d) else a
    .ok ((v + a1 / d) * (1 - d) ^ (-t) - a1 / d)

/-- Embeds `v0_from_p_t(p, t, a, d, after, k)`. -/
def v0_from_p_t (p t a d : ℝ) (after : Bool) (k : ℝ) : Except String (Option ℝ) :=
  (check_values a d).bind fun _ =>
  if t = 0 then .ok none
  else if d = 0 then .ok (some (p / t + (t - 1 + k * 2) * a / 2))
  else
    let a1 := if after then a * (1 - d) else a
    let k1 := if after then k / (1 - d) else k
    .ok (some ((p * d + a1 * t * (1 + k1 * d)) / (1 - (1 - d) ^ t) - a1 / d))

/-- Embeds `t_from_v0_v(v0, v, a, d, after)`. -/
def t_from_v0_v (v0 v a d : ℝ) (after : Bool) : Except String (Option ℝ) :=
  (check_values a d).bind fun _ =>
  if d = 0 then
    if a = 0 then .ok none else .ok (some ((v0 - v) / a))
  else
    let a1 := if after then a * (1 - d) else a
    if v0 * d + a1 = 0 then .ok none
    else
      let arg := (v * d + a1) / (v0 * d + a1)
      if arg ≤ 0 then .ok none
      else .ok (some (Real.log arg / Real.log (1 - d)))

/-- Embeds `t_from_v0_p(v0, p, a, d, after, k)`.  The tuple of up to two
solutions is modelled as a list; in the `a = 0, d > 0` branch the source
returns a bare float, modelled as a one-element list. -/
def t_from_v0_p (v0 p a d : ℝ) (after : Bool) (k : ℝ) :
    Except String (Option (List ℝ)) :=
  (check_values a d).bind fun _ =>
  if d = 0 then
    if a = 0 then .ok none
    else
      let arg := (v0 + a * (0.5 - k)) ^ (2 : ℕ) - p * a * 2
      if arg < 0 then .ok none
      else if arg = 0 then .ok (some [v0 / a + 0.5 - k])
      else .ok (some [(v0 - arg ^ (0.5 : ℝ)) / a + 0.5 - k,
                      (v0 + arg ^ (0.5 : ℝ)) / a + 0.5 - k])
  else if a = 0 then
    if v0 = 0 then .ok none
    else
      let arg := 1 - p * d / v0
      if arg ≤ 0 then .ok none
      else .ok (some [Real.log arg / Real.log (1 - d)])
  else
    let a1 := if after then a * (1 - d) else a
    let k1 := if after then k / (1 - d) else k
    if 1 + k1 * d = 0 then .ok none
    else
      let arg := Real.log (1 - d) * (v0 / a1 + 1 / d) / (1 + k1 * d) *
        (1 - d) ^ ((v0 / a1 + 1 / d - p * d / a1) / (1 + k1 * d))
      if arg * Real.exp 1 < -1 then .ok none
      else if arg * Real.exp 1 = -1 ∨ 0 ≤ arg then
        .ok (some [(v0 / a1 + 1 / d - p * d / a1) / (1 + k1 * d) -
          lambertw arg 0 / Real.log (1 - d)])
      else
        .ok (some [(v0 / a1 + 1 / d - p * d / a1) / (1 + k1 * d) -
            lambertw arg (-1) / Real.log (1 - d),
          (v0 / a1 + 1 / d - p * d / a1) / (1 + k1 * d) -
            lambertw arg 0 / Real.log (1 - d)])

/-- Embeds `v0_t_from_v_p(v, p, a, d, after, k)`.  Pairs `(v0, t)` are listed
in source order; in the `a = 0, d > 0` branch the source returns the bare
pair `(v0, t)` (not a tuple of pairs), modelled as a one-element list.  The
`0 ≤ arg` branch keeps the source's `(1 + d)` factor verbatim. -/
def v0_t_from_v_p (v p a d : ℝ) (after : Bool) (k : ℝ) :
    Except String (Option (List (ℝ × ℝ))) :=
  (check_values a d).bind fun _ =>
  if d = 0 then
    if a = 0 then
      if v = 0 then .ok none else .ok (some [(v, p / v)])
    else
      let arg := ((k - 0.5) * a - v) ^ (2 : ℕ) + p * a * 2
      if arg < 0 then .ok none
      else if arg = 0 then
        let t := k - 0.5 - v / a
        .ok (some [(v + t * a, t)])
      else
        let t0 := k - 0.5 - (v + arg ^ (0.5 : ℝ)) / a
        let t1 := k - 0.5 - (v - arg ^ (0.5 : ℝ)) / a
        .ok (some [(v + t0 * a, t0), (v + t1 * a, t1)])
  else if a = 0 then
    if v = 0 then .ok none
    else
      let v0 := v + p * d
      if v0 = 0 then .ok none
      else
        let arg := v / v0
        if arg ≤ 0 then .ok none
        else .ok (some [(v0, Real.log arg / Real.log (1 - d))])
  else
    let a1 := if after then a * (1 - d) else a
    let k1 := if after then k / (1 - d) else k
    if 1 + k1 * d = 0 then .ok none
    else
      let arg := Real.log (1 - d) * (v / a1 + 1 / d) / (1 + k1 * d) *
        (1 - d) ^ (((v + p * d) / a1 + 1 / d) / (1 + k1 * d))
      if 0 ≤ arg then
        let v0 := a1 * (lambertw arg 0 * (1 + d) / Real.log (1 - d) - 1 / d)
        .ok (some [(v0, (v0 - v - p * d) / a1 / (1 + k1 * d))])
      else
        let v00 := a1 * (lambertw arg 0 * (1 + k1 * d) / Real.log (1 - d) - 1 / d)
        let v01 := a1 * (lambertw arg (-1) * (1 + k1 * d) / Real.log (1 - d) - 1 / d)
        .ok (some [(v00, (v00 - v - p * d) / a1 / (1 + k1 * d)),
                   (v01, (v01 - v - p * d) / a1 / (1 + k1 * d))])

/-- Embeds the helper `phi(x, a, b, c)` of `acceleration.py`. -/
def phi (x a b c : ℝ) : ℝ :=
  if x = 0 then -a * b
  else (a * c - b) * x * Real.log x - (c * x - b) * (x - a)

/-- Embeds `delta(x, a, b, c, k, right)` of `acceleration.py` at a finite
real `x`.  The branches returning `math.inf` are modelled by `(⊤ : EReal)`;
the `x == math.inf` branch of the source is modelled separately by
`deltaInf`.  (At `x = 0` with `b = 0` Python would raise `ZeroDivisionError`
computing `-a/b`; in the embedding `-a/0 = 0` and the `temp == 0` branch is
taken instead.) -/
def delta (x a b c k : ℝ) (right : Bool) : EReal :=
  if x = a then
    if x = 1 then ((1 - k : ℝ) : EReal)
    else if 1 < x then
      if (right = true ∧ 0 < b - a * c) ∨ (right = false ∧ b - a * c < 0) then ⊤
      else ((-k : ℝ) : EReal)
    else
      if (right = true ∧ 0 < b - a * c) ∨ (right = false ∧ b - a * c < 0) then ((-k : ℝ) : EReal)
      else ⊤
  else if x = 0 then
    let temp := -a / b
    if temp = 0 then ((1 - k : ℝ) : EReal)
    else if 0 < temp then ((-k : ℝ) : EReal)
    else ⊤
  else ((x ^ ((b - c * x) / (x - a)) - k : ℝ) : EReal)

/-- Embeds the `x == math.inf` branch of `delta`: the value
`delta(math.inf, a, b, c, k)`. -/
def deltaInf (c k : ℝ) : EReal :=
  if -c = 0 then ((1 - k : ℝ) : EReal)
  else if 0 < -c then ⊤
  else ((-k : ℝ) : EReal)

/-- Embeds `phi1z(a, b, c)` of `acceleration.py`. -/
def phi1z (a b c : ℝ) : List ℝ :=
  if b - a * c = 0 then []
  else
    let arg := Real.exp (2 * a * c / (b - a * c)) * 2 * c / (b - a * c)
    if arg * Real.exp 1 < -1 then []
    else if arg * Real.exp 1 = -1 ∨ 0 ≤ arg then
      [lambertw arg 0 * (b - a * c) / c / 2]
    else
      [lambertw arg 0 * (b - a * c) / c / 2,
       lambertw arg (-1) * (b - a * c) / c / 2]

/-- Embeds the degenerate prefix of `solve_equation(a, b, c, k)` of
`acceleration.py` (the `k <= 0` pre-check and the collapsed `b - a*c == 0`
branch).  The non-degenerate remainder — bracket construction around the
zeros of `phi` followed by `brentq` refinement, an iterative numerical
procedure — is abstracted as the parameter `rest`; the theorems below about
`solve_equation` concern only inputs that never reach `rest`, and the
bracket-doubling loops of the remainder are analysed separately through
`phi`, `delta` and `deltaInf`.  In the `b - a*c == 0` branch the source
returns the bare float `x` rather than a tuple or list; it is modelled as
the one-element list `[x]`. -/
def solve_equation (rest : ℝ → ℝ → ℝ → ℝ → List ℝ) (a b c k : ℝ) : List ℝ :=
  if k ≤ 0 then []
  else if b - a * c = 0 then
    if a ≤ 0 ∨ a = 1 then []
    else
      let x := Real.log k / Real.log a
      if x = -c then [] else [x]
  else rest a b c k

/-- Embeds `solve_quadratic(a, b, c)` of `acceleration.py`; the final
`solutions.sort()` of the two-root case is modelled by ordering the pair. -/
def solve_quadratic (a b c : ℝ) : List ℝ :=
  if a = 0 then [-c / b]
  else
    let arg := b ^ (2 : ℕ) - 4 * a * c
    if arg = 0 then [-b / a / 2]
    else if 0 < arg then
      let s0 := (-b - arg ^ (0.5 : ℝ)) / a / 2
      let s1 := (-b + arg ^ (0.5 : ℝ)) / a / 2
      if s0 ≤ s1 then [s0, s1] else [s1, s0]
    else []

/-- Models Python's backwards removal loop
`for i in range(len(l)-1, -1, -1): if cond(l[i]): l.pop(i)`:
it keeps exactly the elements not satisfying `cond`. -/
def keepList (cond : ℝ → Prop) : List ℝ → List ℝ
  | [] => []
  | x :: xs => if cond x then keepList cond xs else x :: keepList cond xs

/-- Models Python's forward removal loop
`for i in range(n): if cond(l[i]): l.pop(i)` exactly, including the
`IndexError` raised when a removal makes the list shorter than the
originally computed range bound `n`. -/
def fwdPop (cond : ℝ → Prop) : ℕ → ℕ → List ℝ → Except String (List ℝ)
  | 0, _, l => .ok l
  | fuel + 1, i, l =>
    if h : i < l.length then
      if cond (l.get ⟨i, h⟩) then fwdPop cond fuel (i + 1) (l.eraseIdx i)
      else fwdPop cond fuel (i + 1) l
    else .error "list index out of range"

/-- Embeds `a_from_double_v_t(first, second, d, after)`. -/
def a_from_double_v_t (first second : ℝ × ℝ) (d : ℝ) (after : Bool) :
    Except String (Option ℝ) :=
  (check_drag d).bind fun _ =>
  let v1 := first.1
  let t1 := first.2
  let v2 := second.1
  let t2 := second.2
  if d = 0 then
    if t2 - t1 = 0 then .ok none
    else .ok (some ((v1 - v2) / (t2 - t1)))
  else
    let arg := (1 - d) ^ t2 - (1 - d) ^ t1
    if arg = 0 then .ok none
    else
      let a := (v2 * (1 - d) ^ t1 - v1 * (1 - d) ^ t2) * d / arg
      .ok (some (if after then a / (1 - d) else a))

/-- Embeds `a_from_double_p_t(first, second, d, after, k)`. -/
def a_from_double_p_t (first second : ℝ × ℝ) (d : ℝ) (after : Bool) (k : ℝ) :
    Except String (Option ℝ) :=
  (check_drag d).bind fun _ =>
  let p1 := first.1
  let t1 := first.2
  let p2 := second.1
  let t2 := second.2
  if d = 0 then
    if t1 = 0 ∨ t2 = 0 ∨ t2 - t1 = 0 then .ok none
    else .ok (some ((p1 / t1 - p2 / t2) * 2 / (t2 - t1)))
  else
    let k1 := if after then k / (1 - d) else k
    if 1 + k1 * d = 0 then .ok none
    else
      let arg := t2 * (1 - (1 - d) ^ t1) - t1 * (1 - (1 - d) ^ t2)
      if arg = 0 then .ok none
      else
        let a := (p1 * (1 - (1 - d) ^ t2) - p2 * (1 - (1 - d) ^ t1)) * d / (1 + k1 * d) / arg
        .ok (some (if after then a / (1 - d) else a))

/-- Embeds `a_from_double_v_p(first, second, d, after, k)`; `rest` is passed
through to `solve_equation`. -/
def a_from_double_v_p (rest : ℝ → ℝ → ℝ → ℝ → List ℝ) (first second : ℝ × ℝ)
    (d : ℝ) (after : Bool) (k : ℝ) : Except String (Option (List ℝ)) :=
  (check_drag d).bind fun _ =>
  let v1 := first.1
  let p1 := first.2
  let v2 := second.1
  let p2 := second.2
  if d = 0 then
    let arg := 2 * (p2 - p1) + (1 - 2 * k) * (v2 - v1)
    if arg = 0 then .ok none
    else
      let a := (v1 ^ (2 : ℕ) - v2 ^ (2 : ℕ)) / arg
      if ((k - 0.5) * a - v1) ^ (2 : ℕ) + 2 * a * p1 < 0 ∨
         ((k - 0.5) * a - v2) ^ (2 : ℕ) + 2 * a * p2 < 0 then .ok none
      else .ok (some [a])
  else
    let k1 := if after then k / (1 - d) else k
    if 1 + k1 * d = 0 then .ok none
    else
      let sols := solve_equation rest 1 (v1 * d) (v2 * d)
        ((1 - d) ^ ((v2 - v1 + (p2 - p1) * d) / (1 + k1 * d)))
      let kept := keepList (fun ai =>
        Real.log (1 - d) * (v1 / ai + 1 / d) / (1 + k1 * d) *
          (1 - d) ^ (((v1 + p1 * d) / ai + 1 / d) / (1 + k1 * d)) * Real.exp 1 < -1 ∨
        Real.log (1 - d) * (v2 / ai + 1 / d) / (1 + k1 * d) *
          (1 - d) ^ (((v2 + p2 * d) / ai + 1 / d) / (1 + k1 * d)) * Real.exp 1 < -1) sols
      if kept = [] then .ok none
      else .ok (some (if after then kept.map (fun s => s / (1 - d)) else kept))

/-- Embeds `a_from_v_t_p_t(first, second, d, after, k)`. -/
def a_from_v_t_p_t (first second : ℝ × ℝ) (d : ℝ) (after : Bool) (k : ℝ) :
    Except String (Option ℝ) :=
  (check_drag d).bind fun _ =>
  let v1 := first.1
  let t1 := first.2
  let p2 := second.1
  let t2 := second.2
  if d = 0 then
    let arg := t2 * (t2 - 2 * t1 - 1 + 2 * k)
    if arg = 0 then .ok none
    else .ok (some (2 * (v1 * t2 - p2) / arg))
  else
    let k1 := if after then k / (1 - d) else k
    let arg := (1 - (1 - d) ^ t2) / d - t2 * (1 + k1 * d) * (1 - d) ^ t1
    if arg = 0 then .ok none
    else
      let a := (p2 * d * (1 - d) ^ t1 - v1 * (1 - (1 - d) ^ t2)) / arg
      .ok (some (if after then a / (1 - d) else a))

/-- Embeds `a_from_v_t_v_p(first, second, d, after, k)`; `rest` is passed
through to `solve_equation`.  The `d = 0` branch's forward removal loop is
modelled by `fwdPop` (it can raise `IndexError` in the source). -/
def a_from_v_t_v_p (rest : ℝ → ℝ → ℝ → ℝ → List ℝ) (first second : ℝ × ℝ)
    (d : ℝ) (after : Bool) (k : ℝ) : Except String (Option (List ℝ)) :=
  (check_drag d).bind fun _ =>
  let v1 := first.1
  let t1 := first.2
  let v2 := second.1
  let p2 := second.2
  if d = 0 then
    let q := solve_quadratic (t1 * (2 * k - 1 - t1))
      ((v2 - v1) * (1 - 2 * k) + 2 * (p2 - v1 * t1)) (v2 ^ (2 : ℕ) - v1 ^ (2 : ℕ))
    (fwdPop (fun ai => ((k - 0.5) * ai - v2) ^ (2 : ℕ) + 2 * ai * p2 < 0)
        q.length 0 q).bind fun l =>
      if l = [] then .ok none else .ok (some l)
  else
    let k1 := if after then k / (1 - d) else k
    if 1 + k1 * d = 0 then .ok none
    else
      let gamma := (1 - d) ^ (((1 - d) ^ (-t1) - 1) / d / (1 + k1 * d) - t1)
      let sols := solve_equation rest gamma (gamma * v1 * d) (v2 * d)
        ((1 - d) ^ ((v2 - v1 * (1 - d) ^ (-t1) + p2 * d) / (1 + k1 * d)))
      let kept := keepList (fun ai =>
        Real.log (1 - d) * (v2 / ai + 1 / d) / (1 + k1 * d) *
          (1 - d) ^ (((v2 + p2 * d) / ai + 1 / d) / (1 + k1 * d)) * Real.exp 1 < -1) sols
      if kept = [] then .ok none
      else .ok (some (if after then kept.map (fun s => s / (1 - d)) else kept))

/-- Embeds `a_from_p_t_v_p(first, second, d, after, k)`; `rest` is passed
through to `solve_equation`.  The `d = 0` branch's forward removal loop is
modelled by `fwdPop`. -/
def a_from_p_t_v_p (rest : ℝ → ℝ → ℝ → ℝ → List ℝ) (first second : ℝ × ℝ)
    (d : ℝ) (after : Bool) (k : ℝ) : Except String (Option (List ℝ)) :=
  (check_drag d).bind fun _ =>
  let p1 := first.1
  let t1 := first.2
  let v2 := second.1
  let p2 := second.2
  if d = 0 then
    if t1 = 0 then .ok none
    else
      let q := solve_quadratic (k * (k - 1) + (1 - t1 ^ (2 : ℕ)) / 4)
        (v2 * (1 - 2 * k) + 2 * p2 - p1) (v2 ^ (2 : ℕ) - p1 ^ (2 : ℕ) / t1 ^ (2 : ℕ))
      (fwdPop (fun ai => ((k - 0.5) * ai - v2) ^ (2 : ℕ) + 2 * ai * p2 < 0)
          q.length 0 q).bind fun l =>
        if l = [] then .ok none else .ok (some l)
  else
    let k1 := if after then k / (1 - d) else k
    if 1 + k1 * d = 0 then .ok none
    else
      let arg := 1 - (1 - d) ^ t1
      if arg = 0 then .ok none
      else
        let gamma := (1 - d) ^ (t1 / arg - 1 / d / (1 + k1 * d)) * d / arg
        let sols := solve_equation rest (gamma * (1 + k1 * d) * t1) (gamma * p1 * d) (v2 * d)
          ((1 - d) ^ ((v2 + (p2 - p1 / arg) * d) / (1 + k1 * d)))
        let kept := keepList (fun ai =>
          Real.log (1 - d) * (v2 / ai + 1 / d) / (1 + k1 * d) *
            (1 - d) ^ (((v2 + p2 * d) / ai + 1 / d) / (1 + k1 * d)) * Real.exp 1 < -1) sols
        if kept = [] then .ok none
        else .ok (some (if after then kept.map (fun s => s / (1 - d)) else kept))

/-! ### Helper lemmas -/

theorem check_values_ok {a d : ℝ} (ha : 0 ≤ a) (hd0 : 0 ≤ d) (hd1 : d < 1) :
    check_values a d = .ok () := by
  unfold check_values
  rw [if_neg]
  push_neg
  exact ⟨hd0, hd1, ha⟩

theorem check_drag_ok {d : ℝ} (hd0 : 0 ≤ d) (hd1 : d < 1) :
    check_drag d = .ok () := by
  unfold check_drag
  rw [if_neg]
  push_neg
  exact ⟨hd0, hd1⟩

/-! ### Claims about the forward model -/

/-- Claim C10: evaluating the forward model at zero elapsed ticks is the
identity on the motion state: for valid parameters,
`v_from_t(v0, 0, ...) = v0` and `p_from_t(v0, 0, ...) = 0`. -/
theorem C10_zero_tick_identity (v0 a d k : ℝ) (after : Bool)
    (ha : 0 ≤ a) (hd0 : 0 ≤ d) (hd1 : d < 1) :
    v_from_t v0 0 a d after = .ok v0 ∧ p_from_t v0 0 a d after k = .ok 0 := by
  have hc := check_values_ok ha hd0 hd1
  constructor
  · simp only [v_from_t, hc, Except.bind]
    by_cases hd : d = 0
    · rw [if_pos hd]; norm_num
    · rw [if_neg hd]
      simp only [Real.rpow_zero]
      refine congrArg Except.ok ?_
      field_simp
  · simp only [p_from_t, hc, Except.bind]
    by_cases hd : d = 0
    · rw [if_pos hd]; norm_num
    · rw [if_neg hd]
      simp only [Real.rpow_zero]
      refine congrArg Except.ok ?_
      ring

/-- Witness for C10 at `v0 = 3, a = 0.04, d = 0.02, k = 1, after = true`. -/
theorem C10_zero_tick_identity_witness :
    (0 : ℝ) ≤ 0.04 ∧ (0 : ℝ) ≤ 0.02 ∧ (0.02 : ℝ) < 1 ∧
      (v_from_t 3 0 0.04 0.02 true = .ok 3 ∧ p_from_t 3 0 0.04 0.02 true 1 = .ok 0) :=
  ⟨by norm_num, by norm_num, by norm_num,
    C10_zero_tick_identity 3 0.04 0.02 1 true (by norm_num) (by norm_num) (by norm_num)⟩

/-- Claim C6: for valid parameters, `v_from_t` returns `v0 - a*t` when
`d = 0` and `((v0*d + a')*(1-d)^t - a')/d` otherwise, where
`a' = a*(1-d)` iff `after` is set, else `a' = a`. -/
theorem C6_velocity_closed_form (v0 t a d : ℝ) (after : Bool)
    (ha : 0 ≤ a) (hd0 : 0 ≤ d) (hd1 : d < 1) :
    v_from_t v0 t a d after = .ok (if d = 0 then v0 - a * t else
      ((v0 * d + (if after then a * (1 - d) else a)) * (1 - d) ^ t -
        (if after then a * (1 - d) else a)) / d) := by
  simp only [v_from_t, check_values_ok ha hd0 hd1, Except.bind]
  exact (apply_ite Except.ok _ _ _).symm

/-- Witness for C6 at `v0 = 1, t = 2, a = 0.04, d = 0.02, after = true`. -/
theorem C6_velocity_closed_form_witness :
    (0 : ℝ) ≤ 0.04 ∧ (0 : ℝ) ≤ 0.02 ∧ (0.02 : ℝ) < 1 ∧
      v_from_t 1 2 0.04 0.02 true = .ok (if (0.02 : ℝ) = 0 then 1 - 0.04 * 2 else
        ((1 * 0.02 + (if true then 0.04 * (1 - 0.02) else 0.04)) * (1 - 0.02) ^ (2 : ℝ) -
          (if true then 0.04 * (1 - 0.02) else 0.04)) / 0.02) :=
  ⟨by norm_num, by norm_num, by norm_num,
    C6_velocity_closed_form 1 2 0.04 0.02 true (by norm_num) (by norm_num) (by norm_num)⟩

/-- Claim C1: round-trip inversion.  For every valid input, feeding the
forward velocity evaluation into the velocity-inverting solver with the
same `t` recovers the initial velocity exactly:
`v0_from_v_t(v_from_t(v0, t, a, d, after), t, a, d, after) = v0`. -/
theorem C1_velocity_roundtrip (v0 t a d : ℝ) (after : Bool)
    (ha : 0 ≤ a) (hd0 : 0 ≤ d) (hd1 : d < 1) :
    (v_from_t v0 t a d after).bind (fun v => v0_from_v_t v t a d after) = .ok v0 := by
  have hc := check_values_ok ha hd0 hd1
  by_cases hd : d = 0
  · simp only [v_from_t, v0_from_v_t, hc, Except.bind, if_pos hd]
    refine congrArg Except.ok ?_
    ring
  · have h1d : (0 : ℝ) < 1 - d := by linarith
    simp only [v_from_t, v0_from_v_t, hc, Except.bind, if_neg hd]
    refine congrArg Except.ok ?_
    set A := if after then a * (1 - d) else a with hA
    have hXY : (1 - d) ^ t * (1 - d) ^ (-t) = 1 := by
      rw [← Real.rpow_add h1d]
      norm_num
    set X := (1 - d) ^ t with hX
    set Y := (1 - d) ^ (-t) with hY
    have key : (((v0 * d + A) * X - A) / d + A / d) * Y - A / d =
        (v0 * d + A) * (X * Y) / d - A / d := by
      field_simp
      ring
    rw [key, hXY]
    field_simp

/-- Witness for C1 at `v0 = 0, t = 20, a = 0.04, d = 0.02, after = true`
(the spec's Scenario 1: the recovered value is exactly `0`). -/
theorem C1_velocity_roundtrip_witness :
    (0 : ℝ) ≤ 0.04 ∧ (0 : ℝ) ≤ 0.02 ∧ (0.02 : ℝ) < 1 ∧
      (v_from_t 0 20 0.04 0.02 true).bind (fun v => v0_from_v_t v 20 0.04 0.02 true) = .ok 0 :=
  ⟨by norm_num, by norm_num, by norm_num,
    C1_velocity_roundtrip 0 20 0.04 0.02 true (by norm_num) (by norm_num) (by norm_num)⟩

/-! ### Claims about validation and guards -/

/-- Claim C4: fail-fast parameter validation.  For every public entry point,
a call whose physical parameters violate their range (`a < 0`, `d < 0`, or
`d ≥ 1`) fails with the parameter-violation error and never returns a value
or the no-solution sentinel.  (The acceleration solvers validate only `d`,
the acceleration being their unknown.) -/
theorem C4_fail_fast :
    (∀ a d : ℝ, d < 0 ∨ 1 ≤ d ∨ a < 0 →
      ∀ (v0 t p h v k : ℝ) (after : Bool),
        v_from_t v0 t a d after = .error paramErr ∧
        p_from_t v0 t a d after k = .error paramErr ∧
        max_height_tick_from_v0 v0 a d after k = .error paramErr ∧
        max_height_from_v0 v0 a d after k = .error paramErr ∧
        v0_from_max_height h a d after k = .error paramErr ∧
        v0_from_v_t v t a d after = .error paramErr ∧
        v0_from_p_t p t a d after k = .error paramErr ∧
        t_from_v0_v v0 v a d after = .error paramErr ∧
        t_from_v0_p v0 p a d after k = .error paramErr ∧
        v0_t_from_v_p v p a d after k = .error paramErr) ∧
    (∀ d : ℝ, d < 0 ∨ 1 ≤ d →
      ∀ (first second : ℝ × ℝ) (after : Bool) (k : ℝ)
        (rest : ℝ → ℝ → ℝ → ℝ → List ℝ),
        a_from_double_v_t first second d after = .error paramErr ∧
        a_from_double_p_t first second d after k = .error paramErr ∧
        a_from_double_v_p rest first second d after k = .error paramErr ∧
        a_from_v_t_p_t first second d after k = .error paramErr ∧
        a_from_v_t_v_p rest first second d after k = .error paramErr ∧
        a_from_p_t_v_p rest first second d after k = .error paramErr) := by
  constructor
  · intro a d hviol v0 t p h v k after
    have hcv : check_values a d = .error paramErr := by
      unfold check_values
      rw [if_pos hviol]
    refine ⟨?_, ?_, ?_, ?_, ?_, ?_, ?_, ?_, ?_, ?_⟩ <;>
      simp only [v_from_t, p_from_t, max_height_tick_from_v0, max_height_from_v0,
        v0_from_max_height, v0_from_v_t, v0_from_p_t, t_from_v0_v, t_from_v0_p,
        v0_t_from_v_p, hcv, Except.bind]
  · intro d hviol first second after k rest
    have hcd : check_drag d = .error paramErr := by
      unfold check_drag
      rw [if_pos hviol]
    refine ⟨?_, ?_, ?_, ?_, ?_, ?_⟩ <;>
      simp only [a_from_double_v_t, a_from_double_p_t, a_from_double_v_p,
        a_from_v_t_p_t, a_from_v_t_v_p, a_from_p_t_v_p, hcd, Except.bind]

/-- Witness for C4 at the invalid parameters `a = -1, d = 1/2` for the
velocity-module entry points and `d = 2` for the acceleration solvers. -/
theorem C4_fail_fast_witness :
    ((1 / 2 : ℝ) < 0 ∨ (1 : ℝ) ≤ 1 / 2 ∨ (-1 : ℝ) < 0) ∧
    ((2 : ℝ) < 0 ∨ (1 : ℝ) ≤ 2) ∧
    (v_from_t 0 0 (-1) (1 / 2) true = .error paramErr ∧
      p_from_t 0 0 (-1) (1 / 2) true 1 = .error paramErr ∧
      max_height_tick_from_v0 0 (-1) (1 / 2) true 1 = .error paramErr ∧
      max_height_from_v0 0 (-1) (1 / 2) true 1 = .error paramErr ∧
      v0_from_max_height 0 (-1) (1 / 2) true 1 = .error paramErr ∧
      v0_from_v_t 0 0 (-1) (1 / 2) true = .error paramErr ∧
      v0_from_p_t 0 0 (-1) (1 / 2) true 1 = .error paramErr ∧
      t_from_v0_v 0 0 (-1) (1 / 2) true = .error paramErr ∧
      t_from_v0_p 0 0 (-1) (1 / 2) true 1 = .error paramErr ∧
      v0_t_from_v_p 0 0 (-1) (1 / 2) true 1 = .error paramErr) ∧
    (a_from_double_v_t (0, 0) (0, 0) 2 true = .error paramErr ∧
      a_from_double_p_t (0, 0) (0, 0) 2 true 1 = .error paramErr ∧
      a_from_double_v_p (fun _ _ _ _ => []) (0, 0) (0, 0) 2 true 1 = .error paramErr ∧
      a_from_v_t_p_t (0, 0) (0, 0) 2 true 1 = .error paramErr ∧
      a_from_v_t_v_p (fun _ _ _ _ => []) (0, 0) (0, 0) 2 true 1 = .error paramErr ∧
      a_from_p_t_v_p (fun _ _ _ _ => []) (0, 0) (0, 0) 2 true 1 = .error paramErr) :=
  ⟨by norm_num, by norm_num,
    C4_fail_fast.1 (-1) (1 / 2) (by norm_num) 0 0 0 0 0 1 true,
    C4_fail_fast.2 2 (by norm_num) (0, 0) (0, 0) true 1 (fun _ _ _ _ => [])⟩

/-- Claim C7: division-by-zero guards in `a_from_double_p_t`: with `d = 0`
and coincident or zero sample times the solver returns the no-solution
marker without raising, and with `d > 0` the phase-adjusted degeneracy
`1 + k*d = 0` also yields the no-solution marker. -/
theorem C7_division_guards (p1 t1 p2 t2 d k : ℝ) (after : Bool)
    (hd0 : 0 ≤ d) (hd1 : d < 1) :
    ((d = 0 ∧ (t1 = 0 ∨ t2 = 0 ∨ t2 - t1 = 0)) →
      a_from_double_p_t (p1, t1) (p2, t2) d after k = .ok none) ∧
    (0 < d → 1 + (if after then k / (1 - d) else k) * d = 0 →
      a_from_double_p_t (p1, t1) (p2, t2) d after k = .ok none) := by
  have hc := check_drag_ok hd0 hd1
  constructor
  · rintro ⟨hd, ht⟩
    simp only [a_from_double_p_t, hc, Except.bind, if_pos hd, if_pos ht]
  · intro hdpos hk
    have hd : ¬ d = 0 := by linarith
    simp only [a_from_double_p_t, hc, Except.bind, if_neg hd, if_pos hk]

/-- Witness for C7: `d = 0, t1 = t2 = 1` (the spec's Scenario 2) for the
first part, and `d = 1/2, k = -2, after = false` for the second. -/
theorem C7_division_guards_witness :
    ((0 : ℝ) = 0 ∧ ((1 : ℝ) = 0 ∨ (1 : ℝ) = 0 ∨ (1 : ℝ) - 1 = 0)) ∧
    ((0 : ℝ) < 1 / 2 ∧ 1 + (if false then (-2 : ℝ) / (1 - 1 / 2) else (-2 : ℝ)) * (1 / 2) = 0) ∧
    a_from_double_p_t (3, 1) (5, 1) 0 true 1 = .ok none ∧
    a_from_double_p_t (3, 1) (5, 2) (1 / 2) false (-2) = .ok none :=
  ⟨by norm_num, by norm_num,
    (C7_division_guards 3 1 5 1 0 1 true (by norm_num) (by norm_num)).1
      ⟨rfl, by norm_num⟩,
    (C7_division_guards 3 1 5 2 (1 / 2) (-2) false (by norm_num) (by norm_num)).2
      (by norm_num) (by norm_num)⟩

/-- Claim C9: observation-order symmetry of `a_from_double_v_t`: swapping
the two velocity/time observations leaves the result unchanged, including
which cases return the no-solution marker. -/
theorem C9_observation_symmetry (v1 t1 v2 t2 d : ℝ) (after : Bool)
    (hd0 : 0 ≤ d) (hd1 : d < 1) :
    a_from_double_v_t (v1, t1) (v2, t2) d after =
      a_from_double_v_t (v2, t2) (v1, t1) d after := by
  have hc := check_drag_ok hd0 hd1
  simp only [a_from_double_v_t, hc, Except.bind]
  by_cases hd : d = 0
  · simp only [if_pos hd]
    by_cases ht : t2 - t1 = 0
    · rw [if_pos ht, if_pos (by linarith : t1 - t2 = 0)]
    · have ht' : t1 - t2 ≠ 0 := fun h => ht (by linarith)
      rw [if_neg ht, if_neg ht']
      have : (v1 - v2) / (t2 - t1) = (v2 - v1) / (t1 - t2) := by
        rw [div_eq_div_iff ht ht']
        ring
      rw [this]
  · simp only [if_neg hd]
    set X1 := (1 - d) ^ t1 with hX1
    set X2 := (1 - d) ^ t2 with hX2
    by_cases harg : X2 - X1 = 0
    · rw [if_pos harg, if_pos (by linarith : X1 - X2 = 0)]
    · have harg' : X1 - X2 ≠ 0 := fun h => harg (by linarith)
      rw [if_neg harg, if_neg harg']
      have : (v2 * X1 - v1 * X2) * d / (X2 - X1) =
          (v1 * X2 - v2 * X1) * d / (X1 - X2) := by
        rw [div_eq_div_iff harg harg']
        ring
      rw [this]

/-- Witness for C9 at `d = 0.05, after = true` and the observation pairs
`(1, 2)` and `(3, 4)`. -/
theorem C9_observation_symmetry_witness :
    (0 : ℝ) ≤ 0.05 ∧ (0.05 : ℝ) < 1 ∧
      a_from_double_v_t (1, 2) (3, 4) 0.05 true =
        a_from_double_v_t (3, 4) (1, 2) 0.05 true :=
  ⟨by norm_num, by norm_num,
    C9_observation_symmetry 1 2 3 4 0.05 true (by norm_num) (by norm_num)⟩

/-! ### Evaluation helpers for concrete inputs -/

theorem log4_div_log2 : Real.log 4 / Real.log 2 = 2 := by
  rw [show (4 : ℝ) = 2 ^ (2 : ℕ) by norm_num, Real.log_pow]
  have h2 : Real.log 2 ≠ 0 := ne_of_gt (Real.log_pos (by norm_num))
  field_simp

theorem solve_equation_deg_eval :
    solve_equation (fun _ _ _ _ => []) 2 2 1 4 = [Real.log 4 / Real.log 2] := by
  simp only [solve_equation]
  rw [if_neg (by norm_num : ¬(4 : ℝ) ≤ 0), if_pos (by norm_num : (2 : ℝ) - 2 * 1 = 0),
    if_neg (by norm_num : ¬((2 : ℝ) ≤ 0 ∨ (2 : ℝ) = 1)),
    if_neg (by rw [log4_div_log2]; norm_num : ¬Real.log 4 / Real.log 2 = -(1 : ℝ))]

theorem max_height_tick_eval_half :
    max_height_tick_from_v0 1 1 (1 / 2) true 1 = .ok (some 0) := by
  simp only [max_height_tick_from_v0, check_values, Except.bind]
  norm_num

theorem half_rpow_neg_eight : ((1 : ℝ) - 1 / 2) ^ ((-8 : ℝ)) = 256 := by
  have h : ((-8 : ℝ)) = ((-8 : ℤ) : ℝ) := by norm_num
  rw [h, Real.rpow_intCast]
  norm_num

theorem lambert_arg_eval_vp :
    Real.log (1 - (1 / 2 : ℝ)) * (0 / 1 + 1 / (1 / 2)) / (1 + 0 * (1 / 2)) *
        (1 - (1 / 2 : ℝ)) ^ ((((0 : ℝ) + -20 * (1 / 2)) / 1 + 1 / (1 / 2)) / (1 + 0 * (1 / 2))) =
      -(512 * Real.log 2) := by
  have hexp : (((0 : ℝ) + -20 * (1 / 2)) / 1 + 1 / (1 / 2)) / (1 + 0 * (1 / 2)) = (-8 : ℝ) := by
    norm_num
  rw [hexp, half_rpow_neg_eight]
  have hhalf : Real.log (1 - (1 / 2 : ℝ)) = -Real.log 2 := by
    rw [show (1 - (1 / 2 : ℝ)) = 2⁻¹ by norm_num, Real.log_inv]
  rw [hhalf]
  norm_num
  ring

/-! ### Claims about the solvers -/

/-- Claim C3, counterexample: at `(a, b, c, k) = (2, 2, 1, 4)` (which has
`b = a*c` and `k > 0`) the degenerate branch of `solve_equation` returns a
value that is not a solution of `x^(-c) = k`: the returned
`x = log 4 / log 2 = 2` has `x^(-1) = 1/2 ≠ 4`. -/
theorem C3_counterexample :
    ∃ x ∈ solve_equation (fun _ _ _ _ => []) 2 2 1 4, ¬x ^ (-(1 : ℝ)) = (4 : ℝ) := by
  refine ⟨Real.log 4 / Real.log 2,
    by rw [solve_equation_deg_eval]; exact List.mem_singleton.mpr rfl, ?_⟩
  rw [log4_div_log2, Real.rpow_neg_one]
  norm_num

/-- Claim C3, amended: for every parameter tuple, if `k ≤ 0` then
`solve_equation` returns the empty solution set; and if `b = a*c` (the
exponent collapses to the constant `-c`) the equation is solved directly by
a logarithm, every value returned in that case being a solution of the
collapsed pure power equation `a^x = k` (the base is the singular point `a`,
since the returned values are exponent values `E(root)` and the inverse
substitution `root = (b + a*x)/(x + c)` collapses to the constant `a`). -/
theorem C3_degenerate_pre_check (rest : ℝ → ℝ → ℝ → ℝ → List ℝ) (a b c k : ℝ) :
    (k ≤ 0 → solve_equation rest a b c k = []) ∧
    (b = a * c → ∀ x ∈ solve_equation rest a b c k, a ^ x = k) := by
  constructor
  · intro hk
    simp only [solve_equation]
    rw [if_pos hk]
  · intro hb x hx
    simp only [solve_equation] at hx
    by_cases hk : k ≤ 0
    · rw [if_pos hk] at hx
      simp at hx
    · rw [if_neg hk, if_pos (by rw [hb]; ring : b - a * c = 0)] at hx
      by_cases ha : a ≤ 0 ∨ a = 1
      · rw [if_pos ha] at hx
        simp at hx
      · rw [if_neg ha] at hx
        push_neg at ha
        obtain ⟨ha0, ha1⟩ := ha
        by_cases hxc : Real.log k / Real.log a = -c
        · rw [if_pos hxc] at hx
          simp at hx
        · rw [if_neg hxc] at hx
          have hx' : x = Real.log k / Real.log a := List.mem_singleton.mp hx
          subst hx'
          have hk' : 0 < k := lt_of_not_le hk
          have hla : Real.log a ≠ 0 := by
            intro h
            rcases Real.log_eq_zero.mp h with h0 | h1 | hm1
            · linarith
            · exact ha1 h1
            · linarith
          rw [Real.rpow_def_of_pos ha0]
          rw [show Real.log a * (Real.log k / Real.log a) = Real.log k by field_simp]
          exact Real.exp_log hk'

/-- Witness for C3 at `(2, 2, 1, -1)` for the `k ≤ 0` part and `(2, 2, 1, 4)`
with the returned value `log 4 / log 2` for the collapsed-equation part. -/
theorem C3_degenerate_pre_check_witness :
    ((-1 : ℝ) ≤ 0 ∧ solve_equation (fun _ _ _ _ => []) 2 2 1 (-1) = []) ∧
    ((2 : ℝ) = 2 * 1 ∧ (2 : ℝ) ^ (Real.log 4 / Real.log 2) = 4) :=
  ⟨⟨by norm_num, (C3_degenerate_pre_check (fun _ _ _ _ => []) 2 2 1 (-1)).1 (by norm_num)⟩,
   ⟨by norm_num, (C3_degenerate_pre_check (fun _ _ _ _ => []) 2 2 1 4).2 (by norm_num)
      (Real.log 4 / Real.log 2)
      (by rw [solve_equation_deg_eval]; exact List.mem_singleton.mpr rfl)⟩⟩

/-- Claim C5, counterexample: at `v0 = 1, a = 1, d = 1/2, after = true,
k = 1` the function `max_height_tick_from_v0` returns `0` (because the
source also phase-adjusts `k` to `k/(1-d)`), while the claimed formula
`log_{1-d}((1 + k*d)*a' / (v0*d + a'))` with the input `k` evaluates to
`log (3/4) / log (1/2) ≠ 0`. -/
theorem C5_counterexample :
    max_height_tick_from_v0 1 1 (1 / 2) true 1 ≠
      .ok (some (Real.log ((1 + 1 * (1 / 2)) * (1 * (1 - 1 / 2)) /
        (1 * (1 / 2) + 1 * (1 - 1 / 2))) / Real.log (1 - 1 / 2))) := by
  have h1 : Real.log ((1 + 1 * (1 / 2 : ℝ)) * (1 * (1 - 1 / 2)) /
      (1 * (1 / 2) + 1 * (1 - 1 / 2))) < 0 := by
    rw [show (1 + 1 * (1 / 2 : ℝ)) * (1 * (1 - 1 / 2)) /
      (1 * (1 / 2) + 1 * (1 - 1 / 2)) = 3 / 4 by norm_num]
    exact Real.log_neg (by norm_num) (by norm_num)
  have h2 : Real.log (1 - 1 / 2 : ℝ) < 0 := by
    rw [show (1 - 1 / 2 : ℝ) = 1 / 2 by norm_num]
    exact Real.log_neg (by norm_num) (by norm_num)
  have hr : 0 < Real.log ((1 + 1 * (1 / 2 : ℝ)) * (1 * (1 - 1 / 2)) /
      (1 * (1 / 2) + 1 * (1 - 1 / 2))) / Real.log (1 - 1 / 2) :=
    div_pos_of_neg_of_neg h1 h2
  rw [max_height_tick_eval_half]
  intro h
  simp only [Except.ok.injEq, Option.some.injEq] at h
  linarith [hr, h]

/-- Claim C5, amended: for valid parameters `max_height_tick_from_v0`
returns `None` when `d = 0` and `a = 0`; and when `d > 0` with `a > 0` it
returns `log_{1-d}((1 + k'*d)*a' / (v0*d + a'))` where **both** the
acceleration and the drag-coupling coefficient are phase-adjusted
(`a' = a*(1-d)` and `k' = k/(1-d)` iff `after` is set), returning `None`
when that logarithm argument is non-positive or when the denominator
`v0*d + a'` is zero. -/
theorem C5_peak_tick (v0 a d k : ℝ) (after : Bool)
    (ha : 0 ≤ a) (hd0 : 0 ≤ d) (hd1 : d < 1) :
    ((d = 0 ∧ a = 0) → max_height_tick_from_v0 v0 a d after k = .ok none) ∧
    (0 < d → 0 < a →
      (v0 * d + (if after then a * (1 - d) else a) = 0 →
        max_height_tick_from_v0 v0 a d after k = .ok none) ∧
      (v0 * d + (if after then a * (1 - d) else a) ≠ 0 →
        ((1 + (if after then k / (1 - d) else k) * d) * (if after then a * (1 - d) else a) /
            (v0 * d + (if after then a * (1 - d) else a)) ≤ 0 →
          max_height_tick_from_v0 v0 a d after k = .ok none) ∧
        (0 < (1 + (if after then k / (1 - d) else k) * d) * (if after then a * (1 - d) else a) /
            (v0 * d + (if after then a * (1 - d) else a)) →
          max_height_tick_from_v0 v0 a d after k =
            .ok (some (Real.log ((1 + (if after then k / (1 - d) else k) * d) *
              (if after then a * (1 - d) else a) /
              (v0 * d + (if after then a * (1 - d) else a))) / Real.log (1 - d)))))) := by
  have hc := check_values_ok ha hd0 hd1
  constructor
  · rintro ⟨hd, ha0⟩
    simp only [max_height_tick_from_v0, hc, Except.bind, if_pos hd, if_pos ha0]
  · intro hdpos hapos
    have hd : ¬d = 0 := by linarith
    refine ⟨?_, ?_⟩
    · intro hden
      simp only [max_height_tick_from_v0, hc, Except.bind, if_neg hd, if_pos hden]
    · intro hden
      refine ⟨?_, ?_⟩
      · intro hargle
        simp only [max_height_tick_from_v0, hc, Except.bind, if_neg hd, if_neg hden,
          if_pos hargle]
      · intro hargpos
        have hargle : ¬(1 + (if after then k / (1 - d) else k) * d) *
            (if after then a * (1 - d) else a) /
            (v0 * d + (if after then a * (1 - d) else a)) ≤ 0 := not_le.mpr hargpos
        simp only [max_height_tick_from_v0, hc, Except.bind, if_neg hd, if_neg hden,
          if_neg hargle]

/-- Witness for C5 at `v0 = 1, a = 1, d = 1/2, k = 1, after = true`. -/
theorem C5_peak_tick_witness :
    (0 : ℝ) ≤ 1 ∧ (0 : ℝ) ≤ 1 / 2 ∧ (1 / 2 : ℝ) < 1 ∧ (0 : ℝ) < 1 / 2 ∧ (0 : ℝ) < 1 ∧
    (1 * (1 / 2) + (if true then 1 * (1 - 1 / 2 : ℝ) else 1) ≠ 0) ∧
    (0 < (1 + (if true then 1 / (1 - 1 / 2 : ℝ) else 1) * (1 / 2)) *
        (if true then 1 * (1 - 1 / 2 : ℝ) else 1) /
        (1 * (1 / 2) + (if true then 1 * (1 - 1 / 2 : ℝ) else 1))) ∧
    max_height_tick_from_v0 1 1 (1 / 2) true 1 =
      .ok (some (Real.log ((1 + (if true then 1 / (1 - 1 / 2 : ℝ) else 1) * (1 / 2)) *
        (if true then 1 * (1 - 1 / 2 : ℝ) else 1) /
        (1 * (1 / 2) + (if true then 1 * (1 - 1 / 2 : ℝ) else 1))) / Real.log (1 - 1 / 2))) :=
  ⟨by norm_num, by norm_num, by norm_num, by norm_num, by norm_num, by norm_num, by norm_num,
    (((C5_peak_tick 1 1 (1 / 2) 1 true (by norm_num) (by norm_num) (by norm_num)).2
      (by norm_num) (by norm_num)).2 (by norm_num)).2 (by norm_num)⟩

/-- Claim C2: at `v = 0, p = -20, a = 1, d = 1/2, after = false, k = 0` the
computed Lambert argument of `v0_t_from_v_p` is strictly below `-1/e`, yet
the solver returns two candidate pairs instead of the no-solution marker:
the source never compares this argument against the branch point, contrary
to the claim, to the function's own docstring (`None` when no solution can
be found) and to the spec's stated Lambert-W domain rule. -/
theorem C2_below_branch_point_two_candidates :
    Real.log (1 - (1 / 2 : ℝ)) * (0 / 1 + 1 / (1 / 2)) / (1 + 0 * (1 / 2)) *
        (1 - (1 / 2 : ℝ)) ^ ((((0 : ℝ) + -20 * (1 / 2)) / 1 + 1 / (1 / 2)) / (1 + 0 * (1 / 2))) <
      -(Real.exp 1)⁻¹ ∧
    ∃ l, v0_t_from_v_p 0 (-20) 1 (1 / 2) false 0 = .ok (some l) ∧ l.length = 2 := by
  constructor
  · rw [lambert_arg_eval_vp]
    have h2 := Real.log_two_gt_d9
    have hei : (Real.exp 1)⁻¹ < 1 := by
      have h1 : (1 : ℝ) < Real.exp 1 := by
        have := Real.exp_one_gt_d9
        linarith
      exact inv_lt_one_of_one_lt₀ h1
    linarith
  · simp only [v0_t_from_v_p, check_values, Except.bind]
    norm_num
    rw [if_neg (by
      have h : Real.log (1 / 2 : ℝ) < 0 := Real.log_neg (by norm_num) (by norm_num)
      linarith : ¬(0 : ℝ) ≤ Real.log (1 / 2))]
    exact ⟨_, rfl, rfl⟩

theorem delta_coe_of_ne (x a b c k : ℝ) (hxa : x ≠ a) (hx0 : x ≠ 0) (right : Bool) :
    delta x a b c k right = ((x ^ ((b - c * x) / (x - a)) - k : ℝ) : EReal) := by
  unfold delta
  rw [if_neg hxa, if_neg hx0]

-- EReal sign helpers

theorem ereal_mul_coe_neg_of (e : EReal) (r s : ℝ) (h1 : e * (r : EReal) < 0)
    (h2 : 0 < r * s) : e * (s : EReal) < 0 := by
  induction e with
  | h_bot =>
    rcases lt_trichotomy r 0 with hr | hr | hr
    · rw [EReal.bot_mul_of_neg (by exact_mod_cast hr : (r : EReal) < 0)] at h1
      exact absurd h1 (by simp)
    · rw [hr] at h2
      simp at h2
    · have hs : 0 < s := by
        rcases mul_pos_iff.mp h2 with ⟨_, hs⟩ | ⟨hr', _⟩
        · exact hs
        · linarith
      rw [EReal.bot_mul_of_pos (by exact_mod_cast hs : (0 : EReal) < (s : EReal))]
      simp
  | h_real t =>
    rw [← EReal.coe_mul] at h1
    rw [← EReal.coe_mul]
    rw [EReal.coe_neg'] at h1 ⊢
    nlinarith [mul_pos (neg_pos.mpr h1) h2, sq_nonneg r]
  | h_top =>
    rcases lt_trichotomy r 0 with hr | hr | hr
    · have hs : s < 0 := by
        rcases mul_pos_iff.mp h2 with ⟨hr', _⟩ | ⟨_, hs⟩
        · linarith
        · exact hs
      rw [EReal.top_mul_of_neg (by exact_mod_cast hs : (s : EReal) < 0)]
      simp
    · rw [hr] at h2
      simp at h2
    · rw [EReal.top_mul_of_pos (by exact_mod_cast hr : (0 : EReal) < (r : EReal))] at h1
      exact absurd h1 (by simp)

theorem ereal_mul_top_neg_imp (e : EReal) (h1 : e * ⊤ < 0) (s : ℝ) (hs : 0 < s) :
    e * (s : EReal) < 0 := by
  have he : e < 0 := by
    by_contra hnot
    push_neg at hnot
    rcases eq_or_lt_of_le hnot with h | h
    · rw [← h, EReal.zero_mul] at h1
      exact absurd h1 (by simp)
    · rw [EReal.mul_top_of_pos h] at h1
      exact absurd h1 (by simp)
  induction e with
  | h_bot =>
    rw [EReal.bot_mul_of_pos (by exact_mod_cast hs : (0 : EReal) < (s : EReal))]
    simp
  | h_real t =>
    rw [← EReal.coe_mul, EReal.coe_neg']
    have ht : t < 0 := by exact_mod_cast he
    exact mul_neg_of_neg_of_pos ht hs
  | h_top =>
    exact absurd he (by simp)

-- limits

theorem tendsto_log_div_sub (a : ℝ) :
    Tendsto (fun x : ℝ => Real.log x / (x - a)) atTop (nhds 0) := by
  have h1 : Tendsto (fun x : ℝ => Real.log x / x) atTop (nhds 0) := by
    have := Real.isLittleO_log_id_atTop.tendsto_div_nhds_zero
    exact this.congr fun x => by simp
  have h3 : Tendsto (fun x : ℝ => a / x) atTop (nhds 0) :=
    tendsto_const_nhds.div_atTop tendsto_id
  have h2 : Tendsto (fun x : ℝ => 1 / (1 - a / x)) atTop (nhds 1) := by
    have hd := Tendsto.div (tendsto_const_nhds : Tendsto (fun _ : ℝ => (1 : ℝ)) atTop (nhds 1))
      (tendsto_const_nhds.sub h3) (by norm_num : (1 : ℝ) - 0 ≠ 0)
    have : (1 : ℝ) / (1 - 0) = 1 := by norm_num
    rwa [this] at hd
  have hmul := h1.mul h2
  rw [zero_mul] at hmul
  refine Tendsto.congr' ?_ hmul
  filter_upwards [eventually_gt_atTop (max |a| 0)] with x hx
  have hx0 : x ≠ 0 := ne_of_gt (lt_of_le_of_lt (le_max_right _ _) hx)
  have hxa : x - a ≠ 0 := by
    have : a < x := lt_of_le_of_lt (le_trans (le_abs_self a) (le_max_left _ _)) hx
    intro h
    linarith [sub_eq_zero.mp h]
  field_simp

theorem tendsto_exponent (a b c : ℝ) :
    Tendsto (fun x : ℝ => (b - c * x) / (x - a)) atTop (nhds (-c)) := by
  have h1 : Tendsto (fun x : ℝ => b / x) atTop (nhds 0) :=
    tendsto_const_nhds.div_atTop tendsto_id
  have h3 : Tendsto (fun x : ℝ => a / x) atTop (nhds 0) :=
    tendsto_const_nhds.div_atTop tendsto_id
  have hd := Tendsto.div (h1.sub (tendsto_const_nhds : Tendsto (fun _ : ℝ => c) atTop (nhds c)))
    (tendsto_const_nhds.sub h3) (by norm_num : (1 : ℝ) - 0 ≠ 0)
  have hlim : ((0 : ℝ) - c) / (1 - 0) = -c := by norm_num
  rw [hlim] at hd
  refine Tendsto.congr' ?_ hd
  filter_upwards [eventually_gt_atTop (max |a| 0)] with x hx
  have hx0 : x ≠ 0 := ne_of_gt (lt_of_le_of_lt (le_max_right _ _) hx)
  have hxa : x - a ≠ 0 := by
    have : a < x := lt_of_le_of_lt (le_trans (le_abs_self a) (le_max_left _ _)) hx
    intro h
    linarith [sub_eq_zero.mp h]
  field_simp
  ring

-- eventual sign of phi

theorem phi_eventually_sign (a b c : ℝ) (h : (if c = 0 then b else c) ≠ 0) :
    ∀ᶠ x in atTop, phi x a b c * (if c = 0 then b else c) < 0 := by
  by_cases hc : c = 0
  · subst hc
    rw [if_pos rfl] at h ⊢
    filter_upwards [eventually_ge_atTop (Real.exp 2), eventually_ge_atTop (|a| + 1)]
      with x hx1 hx2
    have hx0 : 0 < x := lt_of_lt_of_le (Real.exp_pos 2) hx1
    have hlog : 2 ≤ Real.log x := by
      rw [← Real.log_exp 2]
      exact Real.log_le_log (Real.exp_pos 2) hx1
    have hphi : phi x a b 0 = b * (x - a - x * Real.log x) := by
      unfold phi
      rw [if_neg (ne_of_gt hx0)]
      ring
    rw [hphi]
    have hmul : x * 2 ≤ x * Real.log x := mul_le_mul_of_nonneg_left hlog hx0.le
    have hneg : x - a - x * Real.log x < 0 := by
      have haux : -|a| ≤ a := neg_abs_le a
      linarith
    have hb2 : 0 < b * b := mul_self_pos.mpr h
    nlinarith [hneg, hb2]
  · rw [if_neg hc] at h ⊢
    have t1 : Tendsto (fun x : ℝ => Real.log x / x) atTop (nhds 0) := by
      have := Real.isLittleO_log_id_atTop.tendsto_div_nhds_zero
      exact this.congr fun x => by simp
    have t2 : Tendsto (fun x : ℝ => b / x) atTop (nhds 0) :=
      tendsto_const_nhds.div_atTop tendsto_id
    have t3 : Tendsto (fun x : ℝ => a / x) atTop (nhds 0) :=
      tendsto_const_nhds.div_atTop tendsto_id
    have hg : Tendsto (fun x : ℝ =>
        (a * c - b) * (Real.log x / x) - (c - b / x) * (1 - a / x)) atTop
        (nhds ((a * c - b) * 0 - (c - 0) * (1 - 0))) :=
      ((tendsto_const_nhds.mul t1).sub
        ((tendsto_const_nhds.sub t2).mul (tendsto_const_nhds.sub t3)))
    rw [show (a * c - b) * 0 - (c - 0) * (1 - 0) = -c by ring] at hg
    rcases lt_or_gt_of_ne hc with hcneg | hcpos
    · have hev := hg.eventually (Ioi_mem_nhds (by linarith : -c / 2 < -c))
      filter_upwards [hev, eventually_ge_atTop 1] with x hgx hx1
      have hx0 : 0 < x := lt_of_lt_of_le zero_lt_one hx1
      have hid : phi x a b c =
          ((a * c - b) * (Real.log x / x) - (c - b / x) * (1 - a / x)) * x ^ (2 : ℕ) := by
        unfold phi
        rw [if_neg (ne_of_gt hx0)]
        field_simp
        ring
      rw [hid]
      have hgpos : 0 < (a * c - b) * (Real.log x / x) - (c - b / x) * (1 - a / x) := by
        have : (0 : ℝ) < -c / 2 := by linarith
        exact lt_trans this hgx
      have hx2 : 0 < x ^ (2 : ℕ) := by positivity
      exact mul_neg_of_pos_of_neg (mul_pos hgpos hx2) hcneg
    · have hev := hg.eventually (Iio_mem_nhds (by linarith : -c < -c / 2))
      filter_upwards [hev, eventually_ge_atTop 1] with x hgx hx1
      have hx0 : 0 < x := lt_of_lt_of_le zero_lt_one hx1
      have hid : phi x a b c =
          ((a * c - b) * (Real.log x / x) - (c - b / x) * (1 - a / x)) * x ^ (2 : ℕ) := by
        unfold phi
        rw [if_neg (ne_of_gt hx0)]
        field_simp
        ring
      rw [hid]
      have hgneg : (a * c - b) * (Real.log x / x) - (c - b / x) * (1 - a / x) < 0 := by
        have : -c / 2 < 0 := by linarith
        exact lt_trans hgx this
      have hx2 : 0 < x ^ (2 : ℕ) := by positivity
      exact mul_neg_of_neg_of_pos (mul_neg_of_neg_of_pos hgneg hx2) hcpos

-- eventual sign of delta against a fixed opposite-signed factor

theorem delta_eventually_opp (a b c k : ℝ) (hk : 0 < k) (e : EReal)
    (he : e * deltaInf c k < 0) :
    ∀ᶠ x in atTop, e * delta x a b c k true < 0 := by
  have hreal : ∀ᶠ x in atTop,
      delta x a b c k true = ((x ^ ((b - c * x) / (x - a)) - k : ℝ) : EReal) := by
    filter_upwards [eventually_gt_atTop (max |a| 0)] with x hx
    have hxa : x ≠ a :=
      ne_of_gt (lt_of_le_of_lt (le_trans (le_abs_self a) (le_max_left _ _)) hx)
    have hx0 : x ≠ 0 := ne_of_gt (lt_of_le_of_lt (le_max_right _ _) hx)
    unfold delta
    rw [if_neg hxa, if_neg hx0]
  by_cases hc : c = 0
  · subst hc
    have hinf : deltaInf 0 k = ((1 - k : ℝ) : EReal) := by
      unfold deltaInf
      norm_num
    rw [hinf] at he
    by_cases hk1 : k = 1
    · subst hk1
      norm_num at he
    · have hu : Tendsto (fun x : ℝ => Real.log x * ((b - 0 * x) / (x - a))) atTop (nhds 0) := by
        have h0 := (tendsto_log_div_sub a).const_mul b
        rw [mul_zero] at h0
        exact h0.congr fun x => by ring
      have hexp1 : Tendsto (fun x : ℝ => Real.exp (Real.log x * ((b - 0 * x) / (x - a))))
          atTop (nhds 1) := by
        have hcomp := (Real.continuous_exp.continuousAt (x := (0 : ℝ))).tendsto.comp hu
        rwa [Real.exp_zero] at hcomp
      rcases lt_or_gt_of_ne (fun h => hk1 h.symm : ¬(1 : ℝ) = k) with hkgt | hklt
      · -- 1 < k : f x < 0 eventually
        have hevlt := hexp1.eventually (Iio_mem_nhds hkgt)
        filter_upwards [hreal, hevlt, eventually_gt_atTop 0] with x hdx hlt hx0
        rw [hdx, Real.rpow_def_of_pos hx0]
        exact ereal_mul_coe_neg_of e (1 - k) _ he
          (mul_pos_of_neg_of_neg (by linarith) (by simpa using sub_neg.mpr hlt))
      · -- k < 1 : f x > 0 eventually
        have hevgt := hexp1.eventually (Ioi_mem_nhds hklt)
        filter_upwards [hreal, hevgt, eventually_gt_atTop 0] with x hdx hgt hx0
        rw [hdx, Real.rpow_def_of_pos hx0]
        exact ereal_mul_coe_neg_of e (1 - k) _ he
          (mul_pos (by linarith) (by linarith [hgt]))
  · by_cases hcpos : 0 < c
    · have hinf : deltaInf c k = ((-k : ℝ) : EReal) := by
        unfold deltaInf
        rw [if_neg (by simpa using hc), if_neg (by linarith : ¬(0 : ℝ) < -c)]
      rw [hinf] at he
      have hu : Tendsto (fun x : ℝ => Real.log x * ((b - c * x) / (x - a))) atTop atBot :=
        Filter.Tendsto.atTop_mul_neg (by linarith : -c < 0) Real.tendsto_log_atTop
          (tendsto_exponent a b c)
      have hexp0 : Tendsto (fun x : ℝ => Real.exp (Real.log x * ((b - c * x) / (x - a))))
          atTop (nhds 0) := Real.tendsto_exp_atBot.comp hu
      have hevlt := hexp0.eventually (Iio_mem_nhds hk)
      filter_upwards [hreal, hevlt, eventually_gt_atTop 0] with x hdx hlt hx0
      rw [hdx, Real.rpow_def_of_pos hx0]
      exact ereal_mul_coe_neg_of e (-k) _ he
        (mul_pos_of_neg_of_neg (by linarith) (by linarith))
    · have hcneg : c < 0 := lt_of_le_of_ne (le_of_not_lt hcpos) hc
      have hinf : deltaInf c k = ⊤ := by
        unfold deltaInf
        rw [if_neg (by simpa using hc), if_pos (by linarith : (0 : ℝ) < -c)]
      rw [hinf] at he
      have hu : Tendsto (fun x : ℝ => Real.log x * ((b - c * x) / (x - a))) atTop atTop :=
        Filter.Tendsto.atTop_mul (by linarith : (0 : ℝ) < -c) Real.tendsto_log_atTop
          (tendsto_exponent a b c)
      have hexp := Real.tendsto_exp_atTop.comp hu
      have hevgt := hexp.eventually_gt_atTop k
      filter_upwards [hreal, hevgt, eventually_gt_atTop 0] with x hdx hgt hx0
      rw [hdx, Real.rpow_def_of_pos hx0]
      have hgt' : k < Real.exp (Real.log x * ((b - c * x) / (x - a))) := hgt
      exact ereal_mul_top_neg_imp e he _ (by linarith)

theorem pow_ge_of (X : ℝ) : ∃ n : ℕ, X ≤ (2 : ℝ) ^ n := by
  obtain ⟨n, hn⟩ := pow_unbounded_of_one_lt X (by norm_num : (1 : ℝ) < 2)
  exact ⟨n, le_of_lt hn⟩

theorem mul_pow_ge_of (s X : ℝ) (hs : 0 < s) : ∃ n : ℕ, X ≤ s * (2 : ℝ) ^ (n + 1) := by
  obtain ⟨n, hn⟩ := pow_unbounded_of_one_lt (X / s) (by norm_num : (1 : ℝ) < 2)
  refine ⟨n, ?_⟩
  have h1 : X < s * 2 ^ n := by
    rw [div_lt_iff₀ hs] at hn
    linarith [hn]
  have h2 : s * 2 ^ n ≤ s * 2 ^ (n + 1) := by
    have : (2 : ℝ) ^ n ≤ 2 ^ (n + 1) := by
      apply pow_le_pow_right₀ (by norm_num : (1 : ℝ) ≤ 2) (Nat.le_succ n)
    exact mul_le_mul_of_nonneg_left this hs.le
  linarith

/-- Claim C8: bounded bracket-doubling.  Each of the four geometric
bracket-doubling loops of `solve_equation` terminates whenever its entry
guard holds: an index is reached at which the `while` condition fails,
because past the doubling guard the sign of `phi` (resp. `delta`) eventually
agrees with its asymptotic sign (resp. with `delta(inf)`), which the guard
makes opposite to the fixed factor.  The four conjuncts correspond, in
order, to the `phi` bracket loop started at `temp = 1`, the `phi`
top-bracket extension loop started from the last located zero `s`, the
`delta` bracket loop started at `temp = 1` against `delta(0)`, and the
`delta` top-bracket extension loop started from the last partition point
`s`.  (The source has no exponent ceiling; the loops stop only by capturing
a sign change, which this theorem shows always happens.) -/
theorem C8_bracket_doubling_terminates :
    (∀ a b c : ℝ, 0 < -a * b * (if c = 0 then b else c) →
      ∃ n : ℕ, ¬0 < -a * b * phi ((2 : ℝ) ^ n) a b c) ∧
    (∀ a b c s : ℝ, 0 < s → 0 < phi s a b c * (if c = 0 then b else c) →
      ∃ n : ℕ, ¬0 < phi (s * (2 : ℝ) ^ (n + 1)) a b c * phi s a b c) ∧
    (∀ a b c k : ℝ, 0 < k → delta 0 a b c k true * deltaInf c k < 0 →
      ∃ n : ℕ, ¬0 < delta 0 a b c k true * delta ((2 : ℝ) ^ n) a b c k true) ∧
    (∀ a b c k s : ℝ, 0 < k → 0 < s → delta s a b c k true * deltaInf c k < 0 →
      ∃ n : ℕ, ¬0 < delta (s * (2 : ℝ) ^ (n + 1)) a b c k true * delta s a b c k true) := by
  refine ⟨?_, ?_, ?_, ?_⟩
  · intro a b c hentry
    have hsig : (if c = 0 then b else c) ≠ 0 := by
      intro h0
      rw [h0, mul_zero] at hentry
      exact lt_irrefl 0 hentry
    obtain ⟨X, hX⟩ := eventually_atTop.mp (phi_eventually_sign a b c hsig)
    obtain ⟨n, hn⟩ := pow_ge_of X
    refine ⟨n, ?_⟩
    have hphi := hX ((2 : ℝ) ^ n) hn
    intro hcon
    nlinarith [mul_pos hentry hcon, hphi, sq_nonneg (a * b)]
  · intro a b c s hs hentry
    have hsig : (if c = 0 then b else c) ≠ 0 := by
      intro h0
      rw [h0, mul_zero] at hentry
      exact lt_irrefl 0 hentry
    obtain ⟨X, hX⟩ := eventually_atTop.mp (phi_eventually_sign a b c hsig)
    obtain ⟨n, hn⟩ := mul_pow_ge_of s X hs
    refine ⟨n, ?_⟩
    have hphi := hX (s * (2 : ℝ) ^ (n + 1)) hn
    intro hcon
    nlinarith [mul_pos hentry hcon, hphi, sq_nonneg (if c = 0 then b else c),
      mul_pos hentry hcon, mul_nonneg (sq_nonneg (if c = 0 then b else c)) hcon.le]
  · intro a b c k hk hentry
    obtain ⟨X, hX⟩ :=
      eventually_atTop.mp (delta_eventually_opp a b c k hk (delta 0 a b c k true) hentry)
    obtain ⟨n, hn⟩ := pow_ge_of X
    exact ⟨n, not_lt_of_gt (hX ((2 : ℝ) ^ n) hn)⟩
  · intro a b c k s hk hs hentry
    obtain ⟨X, hX⟩ :=
      eventually_atTop.mp (delta_eventually_opp a b c k hk (delta s a b c k true) hentry)
    obtain ⟨n, hn⟩ := mul_pow_ge_of s X hs
    refine ⟨n, ?_⟩
    have h2 := hX (s * (2 : ℝ) ^ (n + 1)) hn
    rw [EReal.mul_comm] at h2
    exact not_lt_of_gt h2

/-- Witness for C8, instantiating each conjunct at parameters satisfying
its entry guard. -/
theorem C8_bracket_doubling_terminates_witness :
    (0 < -(1 : ℝ) * 1 * (if (-1 : ℝ) = 0 then 1 else -1) ∧
      ∃ n : ℕ, ¬0 < -(1 : ℝ) * 1 * phi ((2 : ℝ) ^ n) 1 1 (-1)) ∧
    ((0 : ℝ) < 1 ∧ 0 < phi 1 2 1 (-1) * (if (-1 : ℝ) = 0 then 1 else -1) ∧
      ∃ n : ℕ, ¬0 < phi (1 * (2 : ℝ) ^ (n + 1)) 2 1 (-1) * phi 1 2 1 (-1)) ∧
    ((0 : ℝ) < 1 ∧ delta 0 2 1 1 1 true * deltaInf 1 1 < 0 ∧
      ∃ n : ℕ, ¬0 < delta 0 2 1 1 1 true * delta ((2 : ℝ) ^ n) 2 1 1 1 true) ∧
    ((0 : ℝ) < 1 ∧ (0 : ℝ) < 1 / 2 ∧ delta (1 / 2) 2 1 1 1 true * deltaInf 1 1 < 0 ∧
      ∃ n : ℕ, ¬0 < delta (1 / 2 * (2 : ℝ) ^ (n + 1)) 2 1 1 1 true *
        delta (1 / 2) 2 1 1 1 true) := by
  have hd0 : delta 0 2 1 1 1 true = ⊤ := by
    unfold delta
    rw [if_neg (by norm_num : ¬(0 : ℝ) = 2), if_pos rfl]
    norm_num
  have hdinf : deltaInf 1 1 = ((-1 : ℝ) : EReal) := by
    unfold deltaInf
    norm_num
  have hentry3 : delta 0 2 1 1 1 true * deltaInf 1 1 < 0 := by
    rw [hd0, hdinf, EReal.top_mul_of_neg (by exact_mod_cast (by norm_num : (-1 : ℝ) < 0))]
    simp
  have hhalf := delta_coe_of_ne (1 / 2) 2 1 1 1 (by norm_num) (by norm_num) true
  have hrpow : (1 : ℝ) < (1 / 2 : ℝ) ^ ((1 - 1 * (1 / 2 : ℝ)) / (1 / 2 - 2)) := by
    rw [Real.one_lt_rpow_iff_of_pos (by norm_num : (0 : ℝ) < 1 / 2)]
    right
    constructor <;> norm_num
  have hentry4 : delta (1 / 2) 2 1 1 1 true * deltaInf 1 1 < 0 := by
    rw [hhalf, hdinf, ← EReal.coe_mul, EReal.coe_neg']
    nlinarith [hrpow]
  have hphi1 : phi 1 2 1 (-1) = -2 := by
    unfold phi
    rw [if_neg (by norm_num : ¬(1 : ℝ) = 0)]
    norm_num
  refine ⟨⟨by norm_num, ?_⟩, ⟨by norm_num, ?_, ?_⟩, ⟨by norm_num, hentry3, ?_⟩,
    ⟨by norm_num, by norm_num, hentry4, ?_⟩⟩
  · exact C8_bracket_doubling_terminates.1 1 1 (-1) (by norm_num)
  · rw [hphi1]
    norm_num
  · exact C8_bracket_doubling_terminates.2.1 2 1 (-1) 1 (by norm_num)
      (by rw [hphi1]; norm_num)
  · exact C8_bracket_doubling_terminates.2.2.1 2 1 1 1 (by norm_num) hentry3
  · exact C8_bracket_doubling_terminates.2.2.2 2 1 1 1 (1 / 2) (by norm_num) (by norm_num)
      hentry4


end MMT

end
